import Mathlib

/-!
# Verification of the pyo_oracle dataset-listing library

Shallow embedding of the `pyo_oracle` Python package (files
`pyo_oracle/main.py` and `pyo_oracle/utils.py`, plus the legacy
`bio_oracle_py/main.py` variant where noted).  Strings are modelled as
ASCII Lean `String`s; pandas DataFrames are modelled as lists of rows;
`functools.lru_cache` is modelled as an explicit state with a
computation tag so that object identity of cached results can be
tracked.
-/

namespace PyoOracle

/-! ## Python string primitives (ASCII model) -/

/-- Python `str.lower()` restricted to ASCII characters. -/
def pyLower (s : String) : String :=
  String.mk (s.data.map Char.toLower)

/-- Python `str.upper()` restricted to ASCII characters. -/
def pyUpper (s : String) : String :=
  String.mk (s.data.map Char.toUpper)

/-- Python `str.capitalize()`: first character upper-cased, rest lower-cased. -/
def pyCapitalize (s : String) : String :=
  match s.data with
  | [] => ""
  | c :: cs => String.mk (c.toUpper :: cs.map Char.toLower)

/-- Boolean prefix test on character lists. -/
def isPrefixB : List Char → List Char → Bool
  | [], _ => true
  | _ :: _, [] => false
  | a :: as, b :: bs => if a = b then isPrefixB as bs else false

/-- Boolean substring test on character lists. -/
def isInfixB (needle : List Char) : List Char → Bool
  | [] => isPrefixB needle []
  | b :: bs => isPrefixB needle (b :: bs) || isInfixB needle bs

/-- Case-insensitive substring test: models `pandas.Series.str.contains(pattern,
case=False)` applied with a regex-escaped literal pattern. -/
def containsCI (hay needle : String) : Bool :=
  isInfixB (pyLower needle).data (pyLower hay).data

/-- Python `str.startswith`. -/
def pyStartsWith (s pre : String) : Bool :=
  isPrefixB pre.data s.data

/-- Python `str.endswith`. -/
def pyEndsWith (s suffix : String) : Bool :=
  isPrefixB suffix.data.reverse s.data.reverse

/-- Python `str.split(sep)` on character lists (for a one-character
separator): splitting the empty text yields one empty group. -/
def splitChar (sep : Char) : List Char → List (List Char)
  | [] => [[]]
  | c :: cs =>
    let rest := splitChar sep cs
    if c = sep then [] :: rest
    else
      match rest with
      | [] => [[c]]
      | g :: gs => (c :: g) :: gs

/-- Membership of a string in a list of strings, as a boolean. -/
def memb (x : String) : List String → Bool
  | [] => false
  | y :: ys => if y = x then true else memb x ys

/-! ## Catalog data model

A catalog row corresponds to one row of the pandas DataFrame returned by
the server; the four searchable columns of `_list_layers` are modelled as
fields, and the catalog records which of the optional columns exist. -/

structure Row where
  datasetID : String
  title : String
  long_name : String
  standard_name : String
deriving DecidableEq, Repr

structure Catalog where
  rows : List Row
  hasTitle : Bool
  hasLongName : Bool
  hasStandardName : Bool
deriving DecidableEq, Repr

/-- Truthiness of the (already canonicalized) optional tuple arguments of
`_list_layers`: Python `if search:` is false for `None` and for an empty
tuple. -/
def truthy : Option (List String) → Bool
  | Option.none => false
  | some xs => !xs.isEmpty

/-- The searchable text of a row: the columns among `datasetID`, `title`,
`long_name`, `standard_name` that exist in the catalog (main.py lines
246-252; `datasetID` always exists in this model, so the source's
fall-back to `["datasetID"]` can never fire). -/
def searchTexts (cat : Catalog) (r : Row) : List String :=
  [r.datasetID]
    ++ (if cat.hasTitle then [r.title] else [])
    ++ (if cat.hasLongName then [r.long_name] else [])
    ++ (if cat.hasStandardName then [r.standard_name] else [])

/-- One row's value of the search mask of main.py lines 254-257: the
regex-escaped alternation of the terms matches some searchable column iff
some term is a case-insensitive substring of some searchable column. -/
def searchMatch (cat : Catalog) (terms : List String) (r : Row) : Bool :=
  (searchTexts cat r).any (fun text => terms.any (fun t => containsCI text t))

/-- `datasetID.str.split("_", expand=True)[2]` for one row: the third
`_`-separated segment of the identifier, when it exists (absent segments
compare unequal to any string, like the NaN the expanded split produces). -/
def startDecade (id : String) : Option String :=
  (((splitChar '_' id.data).map String.mk).get? 2)

/-- The filtering body of `_list_layers` (main.py lines 240-294): the
successive reassignments of `_dataframe` under the search, variables,
time_period, ssp and depth steps, in source order.  Arguments arrive as
the canonicalized optional tuples produced by `_ensure_hashable`. -/
def filteredRows (search vars ssp time_period depth : Option (List String))
    (cat : Catalog) : List Row :=
  let rows0 := cat.rows
  let rows1 :=
    if truthy search then
      rows0.filter (fun r => searchMatch cat (search.getD []) r)
    else rows0
  let rows2 :=
    if truthy vars then
      ((vars.getD []).map
        (fun v => rows1.filter (fun r => pyStartsWith r.datasetID (pyLower v)))).flatten
    else rows1
  let rows3 :=
    if truthy time_period then
      if time_period = some ["present"] then
        rows2.filter (fun r => startDecade r.datasetID == some "2000")
      else if time_period = some ["future"] then
        rows2.filter (fun r => startDecade r.datasetID == some "2020")
      else rows2
    else rows2
  let rows4 :=
    if truthy ssp then
      ((ssp.getD []).map
        (fun v => rows3.filter (fun r =>
          containsCI r.datasetID (pyLower v)
            || containsCI r.datasetID (pyCapitalize v)
            || containsCI r.datasetID (pyUpper v)))).flatten
    else rows3
  let rows5 :=
    if truthy depth then
      ((depth.getD []).map
        (fun v => rows4.filter (fun r =>
          containsCI r.datasetID ("depth" ++ pyLower v)
            || containsCI r.datasetID ("depth" ++ pyCapitalize v)
            || containsCI r.datasetID ("depth" ++ pyUpper v)))).flatten
    else rows4
  rows5

/-- Result of `_list_layers`: a DataFrame, a DataFrame projected to the
`(datasetID, title)` columns (the `simplify` option), or a plain list of
identifiers (`dataframe=False`).  `reset_index(drop=True)` does not change
the row order and is modelled as the identity. -/
inductive ListLayersResult where
  | table (rows : List Row)
  | simpleTable (rows : List (String × String))
  | idList (ids : List String)
deriving DecidableEq, Repr

/-- Final shaping of `_list_layers` (main.py lines 296-303) applied to the
filtered rows. -/
def listLayersCore (search vars ssp time_period depth : Option (List String))
    (dataframe simplify : Bool) (cat : Catalog) : ListLayersResult :=
  let rows := filteredRows search vars ssp time_period depth cat
  if dataframe then
    if simplify then
      ListLayersResult.simpleTable (rows.map (fun r => (r.datasetID, r.title)))
    else ListLayersResult.table rows
  else ListLayersResult.idList (rows.map (fun r => r.datasetID))

/-- The `datasetID` column of a result. -/
def resultIds : ListLayersResult → List String
  | ListLayersResult.table rows => rows.map (fun r => r.datasetID)
  | ListLayersResult.simpleTable rows => rows.map (fun p => p.1)
  | ListLayersResult.idList ids => ids

/-- Number of rows of a result. -/
def resultRowCount : ListLayersResult → Nat
  | ListLayersResult.table rows => rows.length
  | ListLayersResult.simpleTable rows => rows.length
  | ListLayersResult.idList ids => ids.length

/-! ## Canonicalization of filter arguments

`pyo_oracle/main.py` canonicalizes every filter argument with
`_ensure_hashable` before handing it to the `lru_cache`-wrapped
`_list_layers`.  `_ensure_hashable` is imported from `pyo_oracle.utils`
but absent from the repository sources (utils.py only contains the unused
legacy decorator `_format_args`), so it is modelled from the spec below. -/

/-- Strict lexicographic order on character lists, by character code. -/
def lexB : List Char → List Char → Bool
  | [], [] => false
  | [], _ :: _ => true
  | _ :: _, [] => false
  | a :: as, b :: bs =>
    if a.val.toNat < b.val.toNat then true
    else if b.val.toNat < a.val.toNat then false
    else lexB as bs

/-- Strict lexicographic order on strings, by character code. -/
def strLtB (a b : String) : Bool :=
  lexB a.data b.data

/-- Ordered duplicate-free insertion for the canonical ordering. -/
def insertSD (x : String) : List String → List String
  | [] => [x]
  | y :: ys =>
    if strLtB x y then x :: y :: ys
    else if x = y then y :: ys
    else y :: insertSD x ys

/-- Canonical form of a collection of strings: strictly sorted, without
duplicates — an order that does not depend on the order or container in
which the elements arrived. -/
def sortDedup (xs : List String) : List String :=
  xs.foldr insertSD []

/-- A Python value accepted as a filter argument of `list_layers`:
`None`, a single string, or a list/tuple/set of strings. -/
inductive PyValue where
  | pyNone
  | pyStr (s : String)
  | pyList (xs : List String)
  | pyTuple (xs : List String)
  | pySet (xs : List String)
deriving DecidableEq, Repr

/-- The elements carried by a `PyValue` (`Option.none` for Python `None`). -/
def PyValue.elems : PyValue → Option (List String)
  | .pyNone => Option.none
  | .pyStr s => some [s]
  | .pyList xs => some xs
  | .pyTuple xs => some xs
  | .pySet xs => some xs

/-- Whether two argument values carry the same set of elements (both
`None`, or both collections with the same members). -/
def PyValue.sameElemsB : PyValue → PyValue → Bool
  | a, b =>
    match a.elems, b.elems with
    | Option.none, Option.none => true
    | some xs, some ys => (xs.all (fun x => memb x ys)) && (ys.all (fun y => memb y xs))
    | _, _ => false

/-- Modelled from the spec: `_ensure_hashable`, the cache-key
canonicalization applied by `list_layers` (main.py lines 213-224).  The
function itself is imported from `pyo_oracle.utils` but is missing from
the repository sources; spec §4.4 prescribes: `None` stays `None`, a
single string becomes a 1-tuple, and any other iterable becomes a tuple
in an order that is independent of the input container's native
ordering, so that semantically equal element sets canonicalize to equal
cache keys.  The canonical order is modelled as the sorted
duplicate-free sequence of the elements. -/
def ensure_hashable : PyValue → Option (List String)
  | .pyNone => Option.none
  | .pyStr s => some [s]
  | .pyList xs => some (sortDedup xs)
  | .pyTuple xs => some (sortDedup xs)
  | .pySet xs => some (sortDedup xs)

/-! ## The `functools.lru_cache` model

An `lru_cache`-decorated function is modelled as an explicit state: a
most-recent-first association list of `(key, (tag, value))` entries plus
a fresh-tag counter and a miss counter.  Every computed value receives a
fresh tag, and a cache hit returns the stored tag and value unchanged, so
two calls return *the identical Python object* exactly when they return
the same tag.  `misses` counts the calls that actually ran the wrapped
computation (for `_layer_dataframe`, the server fetches). -/

structure CacheState (κ α : Type) where
  entries : List (κ × Nat × α)
  nextTag : Nat
  misses : Nat

/-- Look a key up in the entry list of a cache. -/
def lookupTag {κ α : Type} [DecidableEq κ] : List (κ × Nat × α) → κ → Option (Nat × α)
  | [], _ => Option.none
  | (k, tv) :: rest, key => if k = key then some tv else lookupTag rest key

/-- Remove a key from the entry list of a cache. -/
def dropKey {κ α : Type} [DecidableEq κ] (l : List (κ × Nat × α)) (key : κ) :
    List (κ × Nat × α) :=
  l.filter (fun e => decide (e.1 ≠ key))

/-- One call through `functools.lru_cache(maxsize)`: on a hit the stored
`(tag, value)` pair is returned and its entry moved to the front; on a
miss the wrapped function runs, the result is stored under a fresh tag,
and the least recently used entry is evicted if the cache is over
capacity. -/
def lruCall {κ α : Type} [DecidableEq κ] (maxsize : Nat) (f : κ → α)
    (st : CacheState κ α) (k : κ) : (Nat × α) × CacheState κ α :=
  match lookupTag st.entries k with
  | some tv => (tv, ⟨(k, tv) :: dropKey st.entries k, st.nextTag, st.misses⟩)
  | Option.none =>
    let v := f k
    ((st.nextTag, v),
      ⟨((k, (st.nextTag, v)) :: st.entries).take maxsize, st.nextTag + 1, st.misses + 1⟩)

/-- A cache state is well formed for `f` when every stored value is the
value `f` computes for its key (true of every state `lru_cache` can
actually reach). -/
def CacheWF {κ α : Type} (f : κ → α) (st : CacheState κ α) : Prop :=
  ∀ e ∈ st.entries, e.2.2 = f e.1

/-! ## Catalog fetcher and cached pipeline entry points -/

/-- The pure part of `_layer_dataframe` (utils.py lines 193-211): the
table fetched from the server (a parameter here), with the first row —
the `allDatasets` metadata row — dropped unless `include_allDatasets`.
The `lru_cache(2)` wrapper is applied via `lruCall 2` below. -/
def layerDataframeCompute (serverCat : Catalog) (include_allDatasets : Bool) : Catalog :=
  if include_allDatasets then serverCat
  else { serverCat with rows := serverCat.rows.drop 1 }

/-- The cache key of `_list_layers`: its positional argument tuple
`(search, variables, ssp, time_period, depth, dataframe, simplify,
_include_allDatasets)`. -/
structure FilterKey where
  search : Option (List String)
  vars : Option (List String)
  ssp : Option (List String)
  time_period : Option (List String)
  depth : Option (List String)
  dataframe : Bool
  simplify : Bool
  include_allDatasets : Bool
deriving DecidableEq, Repr

/-- The computation wrapped by `lru_cache(maxsize=8)` in main.py line 228:
fetch the catalog for the `_include_allDatasets` flag and run the filter
pipeline. -/
def list_layers_compute (serverCat : Catalog) (k : FilterKey) : ListLayersResult :=
  listLayersCore k.search k.vars k.ssp k.time_period k.depth k.dataframe k.simplify
    (layerDataframeCompute serverCat k.include_allDatasets)

/-- The cache key `list_layers` builds by canonicalizing each argument
with `_ensure_hashable` (main.py lines 215-224). -/
def list_layers_key (search vars ssp time_period depth : PyValue)
    (dataframe simplify ia : Bool) : FilterKey :=
  ⟨ensure_hashable search, ensure_hashable vars, ensure_hashable ssp,
    ensure_hashable time_period, ensure_hashable depth, dataframe, simplify, ia⟩

/-- The canonicalize-and-memoize step of `list_layers` (main.py lines
213-224): build the canonical key and call the `lru_cache(8)`-wrapped
`_list_layers`.  In the source this step is reached only after the
validation loop of lines 200-211; the full entry point, including the
validation that aborts on any list/tuple/set argument, is
`list_layers_full` below. -/
def list_layers_call (serverCat : Catalog) (st : CacheState FilterKey ListLayersResult)
    (search vars ssp time_period depth : PyValue) (dataframe simplify ia : Bool) :
    (Nat × ListLayersResult) × CacheState FilterKey ListLayersResult :=
  lruCall 8 (list_layers_compute serverCat) st
    (list_layers_key search vars ssp time_period depth dataframe simplify ia)

/-! ## Argument validator -/

/-- The valid variables of main.py lines 36-55 (the `_Variable` literal). -/
def valid_variables : List String :=
  ["chl", "clt", "dfe", "mlotst", "no3", "o2", "ph", "phyc", "po4", "si",
    "siconc", "sithick", "so", "swd", "sws", "tas", "terrain", "thetao"]

/-- The valid scenarios of main.py line 56 (the `_SSP` literal). -/
def valid_ssp : List String :=
  ["ssp119", "ssp126", "ssp245", "ssp370", "ssp460", "ssp585", "baseline"]

/-- The valid time periods of main.py line 57. -/
def valid_time_period : List String := ["present", "future"]

/-- The valid depths of main.py line 58. -/
def valid_depth : List String := ["min", "mean", "max", "surf"]

/-- `_validate_argument` (utils.py lines 61-89).  The result is the list
of diagnostics printed, each naming the field, the offending value and
the allowed set.  For a value that is neither `None` nor a string the
source evaluates `isinstance(value, Iterable)` — but `Iterable` is not
among the names utils.py imports (line 10 imports only `Dict, List,
Optional, Union` from `typing`), so that branch raises `NameError`,
modelled as the error case. -/
def validate_argument (name : String) (value : PyValue) (valid_values : List String) :
    Except String (List (String × String × List String)) :=
  match value with
  | .pyNone => Except.ok []
  | .pyStr s =>
    Except.ok (if memb (pyLower s) valid_values then [] else [(name, s, valid_values)])
  | .pyList _ | .pyTuple _ | .pySet _ =>
    Except.error "NameError: name 'Iterable' is not defined"

/-- Whether a filter argument is `None` or a single string — the only
values for which `_validate_argument` does not reach its broken
`Iterable` branch. -/
def PyValue.isScalar : PyValue → Bool
  | .pyNone => true
  | .pyStr _ => true
  | .pyList _ => false
  | .pyTuple _ => false
  | .pySet _ => false

/-- The validation loop of `list_layers` (main.py lines 200-211): each of
`variables`, `ssp`, `time_period`, `depth` is checked against its
vocabulary, in that order; the first `NameError` (raised by
`_validate_argument` on any list/tuple/set value) aborts the call.  The
`search` argument is not validated.  The ok payload is the concatenated
diagnostics. -/
def list_layers_validate (vars ssp time_period depth : PyValue) :
    Except String (List (String × String × List String)) :=
  match validate_argument "variables" vars valid_variables with
  | Except.error e => Except.error e
  | Except.ok d1 =>
    match validate_argument "ssp" ssp valid_ssp with
    | Except.error e => Except.error e
    | Except.ok d2 =>
      match validate_argument "time_period" time_period valid_time_period with
      | Except.error e => Except.error e
      | Except.ok d3 =>
        match validate_argument "depth" depth valid_depth with
        | Except.error e => Except.error e
        | Except.ok d4 => Except.ok (d1 ++ d2 ++ d3 ++ d4)

/-- A full call of `list_layers` (main.py lines 161-224): run the
validation loop — which in the staged source raises `NameError` for any
list/tuple/set argument among `variables`, `ssp`, `time_period`,
`depth` — and only if it survives, canonicalize every filter argument
with `_ensure_hashable` and call the `lru_cache(8)`-wrapped
`_list_layers`. -/
def list_layers_full (serverCat : Catalog) (st : CacheState FilterKey ListLayersResult)
    (search vars ssp time_period depth : PyValue) (dataframe simplify ia : Bool) :
    Except String ((Nat × ListLayersResult) × CacheState FilterKey ListLayersResult) :=
  match list_layers_validate vars ssp time_period depth with
  | Except.error e => Except.error e
  | Except.ok _ =>
    Except.ok (list_layers_call serverCat st search vars ssp time_period depth
      dataframe simplify ia)

/-! ## Local inventory lister -/

/-- The directory `list_local_data` (main.py lines 306-346) *reports* in
its messages: the argument when given, otherwise the configured data
directory. -/
def reported_directory (data_directory : Option String) (config_data_directory : String) :
    String :=
  data_directory.getD config_data_directory

/-- The files `list_local_data` enumerates, sizes and aggregates: main.py
line 332 globs `config["data_directory"]` regardless of the
`data_directory` argument (the filesystem is modelled as a map from a
directory to its entries); non-verbose mode then suppresses `.log`
files. -/
def list_local_files (data_directory : Option String) (config_data_directory : String)
    (fs : String → List String) (verbose : Bool) : List String :=
  let files := fs config_data_directory
  if verbose then files else files.filter (fun f => !(pyEndsWith f ".log"))

/-! ## Download filename and dataset-id normalization -/

/-- A wall-clock instant, as the fields `strftime` reads. -/
structure PyDateTime where
  year : Nat
  month : Nat
  day : Nat
  hour : Nat
  minute : Nat
  second : Nat
deriving DecidableEq, Repr

/-- Zero-padding to two digits. -/
def pad2 (n : Nat) : String :=
  if n < 10 then "0" ++ toString n else toString n

/-- Zero-padding to four digits. -/
def pad4 (n : Nat) : String :=
  if n < 10 then "000" ++ toString n
  else if n < 100 then "00" ++ toString n
  else if n < 1000 then "0" ++ toString n
  else toString n

/-- `datetime.now().strftime("%Y-%m-%d-%H%M%S")` applied to a given
instant. -/
def strftime_seconds (t : PyDateTime) : String :=
  pad4 t.year ++ "-" ++ pad2 t.month ++ "-" ++ pad2 t.day ++ "-" ++
    pad2 t.hour ++ pad2 t.minute ++ pad2 t.second

/-- The filename choice of `_download_layer` (utils.py lines 244-249):
the assignment `timestamp = datetime.now().strftime(...)` overwrites the
boolean `timestamp` parameter before the conditional reads it, so the
condition tests the truthiness (non-emptiness) of the formatted time
string. -/
def download_layer_filename (dataset_id response : String) (timestamp : Bool)
    (now : PyDateTime) : String :=
  let timestamp := strftime_seconds now
  if timestamp ≠ "" then dataset_id ++ "_" ++ timestamp ++ "." ++ response
  else dataset_id ++ "." ++ response

/-- Python `str.islower()` over ASCII: true iff the string has at least
one cased character and every cased character is lower case. -/
def pyIsLower (s : String) : Bool :=
  s.data.any (fun c => c.isAlpha) && s.data.all (fun c => !c.isAlpha || c.isLower)

/-- The dataset-id normalization in `download_layers` (main.py lines
115-118): ids that are not `islower()` are lower-cased (with a notice
printed, the boolean component) unless `skip_convert_to_lowercase`. -/
def normalize_dataset_id (dataset_id : String) (skip_convert_to_lowercase : Bool) :
    String × Bool :=
  if !(pyIsLower dataset_id) && !skip_convert_to_lowercase then
    (pyLower dataset_id, true)
  else (dataset_id, false)

/-! ## convert_bytes -/

/-- The unit list of `convert_bytes` (utils.py line 31). -/
def convert_bytes_units : List String := ["bytes", "KB", "MB", "GB", "TB"]

/-- The loop of `convert_bytes`: try each unit; below 1024 return the
current value with that unit, else divide by 1024 and continue; falling
off the list returns Python `None`. -/
def convert_bytes_go : ℚ → List String → Option (ℚ × String)
  | _, [] => Option.none
  | num, x :: xs => if num < 1024 then some (num, x) else convert_bytes_go (num / 1024) xs

/-- `convert_bytes` (utils.py lines 18-34).  The byte count is modelled
as a rational: every operation the source performs is a division by the
power of two `1024.0`, which is exact in IEEE double precision for the
magnitudes involved, so the rational model is faithful.  The string
built by `"%3.1f %s" % (num, x)` is modelled by the pair `(num, x)` it
formats; the `None` fall-through is `Option.none`. -/
def convert_bytes (num : ℚ) : Option (ℚ × String) :=
  convert_bytes_go num convert_bytes_units


/-! ### Ordering lemmas for the canonical form -/

theorem lexB_cons_iff {a b : Char} {as bs : List Char} :
    lexB (a :: as) (b :: bs) = true ↔
      a.val.toNat < b.val.toNat ∨ (a.val.toNat = b.val.toNat ∧ lexB as bs = true) := by
  simp only [lexB]
  split
  · simp_all
  · split
    · simp_all; omega
    · have : a.val.toNat = b.val.toNat := by omega
      simp_all

theorem char_eq_of_code_eq {a b : Char} (h : a.val.toNat = b.val.toNat) : a = b :=
  Char.ext (UInt32.ext h)

theorem lexB_irrefl : ∀ l : List Char, lexB l l = false := by
  intro l
  induction l with
  | nil => rfl
  | cons a as ih => simp [lexB, ih]

theorem lexB_trans : ∀ {l1 l2 l3 : List Char},
    lexB l1 l2 = true → lexB l2 l3 = true → lexB l1 l3 = true := by
  intro l1
  induction l1 with
  | nil =>
    intro l2 l3 h12 h23
    cases l2 with
    | nil => simp [lexB] at h12
    | cons b bs =>
      cases l3 with
      | nil => simp [lexB] at h23
      | cons c cs => rfl
  | cons a as ih =>
    intro l2 l3 h12 h23
    cases l2 with
    | nil => simp [lexB] at h12
    | cons b bs =>
      cases l3 with
      | nil => simp [lexB] at h23
      | cons c cs =>
        rw [lexB_cons_iff] at h12 h23 ⊢
        rcases h12 with h | ⟨he, ht⟩ <;> rcases h23 with h' | ⟨he', ht'⟩
        · exact Or.inl (by omega)
        · exact Or.inl (by omega)
        · exact Or.inl (by omega)
        · exact Or.inr ⟨by omega, ih ht ht'⟩

theorem lexB_total : ∀ {l1 l2 : List Char}, l1 ≠ l2 →
    lexB l1 l2 = true ∨ lexB l2 l1 = true := by
  intro l1
  induction l1 with
  | nil =>
    intro l2 hne
    cases l2 with
    | nil => exact absurd rfl hne
    | cons b bs => exact Or.inl rfl
  | cons a as ih =>
    intro l2 hne
    cases l2 with
    | nil => exact Or.inr rfl
    | cons b bs =>
      rcases Nat.lt_trichotomy a.val.toNat b.val.toNat with h | h | h
      · exact Or.inl (lexB_cons_iff.mpr (Or.inl h))
      · have hab : a = b := char_eq_of_code_eq h
        subst hab
        have hne' : as ≠ bs := by intro hx; exact hne (by rw [hx])
        rcases ih hne' with h' | h'
        · exact Or.inl (lexB_cons_iff.mpr (Or.inr ⟨rfl, h'⟩))
        · exact Or.inr (lexB_cons_iff.mpr (Or.inr ⟨rfl, h'⟩))
      · exact Or.inr (lexB_cons_iff.mpr (Or.inl h))

theorem strLtB_irrefl (s : String) : strLtB s s = false := lexB_irrefl s.data

theorem strLtB_trans {a b c : String} (h1 : strLtB a b = true) (h2 : strLtB b c = true) :
    strLtB a c = true := lexB_trans h1 h2

theorem strLtB_asymm {a b : String} (h1 : strLtB a b = true) (h2 : strLtB b a = true) :
    False := by
  have := strLtB_trans h1 h2
  rw [strLtB_irrefl] at this
  exact Bool.false_ne_true this

theorem strLtB_total {a b : String} (hne : a ≠ b) :
    strLtB a b = true ∨ strLtB b a = true := by
  apply lexB_total
  intro hd
  exact hne (by cases a; cases b; simp_all)


/-! ### sortDedup: canonical form lemmas -/

def strLt (a b : String) : Prop := strLtB a b = true

theorem mem_insertSD {a x : String} : ∀ {l : List String},
    a ∈ insertSD x l ↔ a = x ∨ a ∈ l := by
  intro l
  induction l with
  | nil => simp [insertSD]
  | cons y ys ih =>
    simp only [insertSD]
    split
    · simp
    · split
      · rename_i hxy
        subst hxy
        simp only [List.mem_cons]
        tauto
      · simp only [List.mem_cons, ih]
        tauto

theorem pairwise_insertSD {x : String} : ∀ {l : List String},
    l.Pairwise strLt → (insertSD x l).Pairwise strLt := by
  intro l
  induction l with
  | nil => intro _; simp [insertSD, List.Pairwise]
  | cons y ys ih =>
    intro hp
    rcases List.pairwise_cons.mp hp with ⟨hy, hys⟩
    simp only [insertSD]
    split
    · rename_i hxy
      refine List.pairwise_cons.mpr ⟨?_, hp⟩
      intro z hz
      rcases List.mem_cons.mp hz with rfl | hz'
      · exact hxy
      · exact strLtB_trans hxy (hy z hz')
    · split
      · exact hp
      · rename_i hnlt hneq
        refine List.pairwise_cons.mpr ⟨?_, ih hys⟩
        intro z hz
        rcases mem_insertSD.mp hz with rfl | hz'
        · rcases strLtB_total hneq with h | h
          · exact absurd h hnlt
          · exact h
        · exact hy z hz'

theorem mem_sortDedup {a : String} : ∀ {xs : List String},
    a ∈ sortDedup xs ↔ a ∈ xs := by
  intro xs
  induction xs with
  | nil => simp [sortDedup]
  | cons x xs ih =>
    simp only [sortDedup, List.foldr_cons] at *
    rw [mem_insertSD, ih, List.mem_cons]

theorem pairwise_sortDedup : ∀ (xs : List String), (sortDedup xs).Pairwise strLt := by
  intro xs
  induction xs with
  | nil => simp [sortDedup, List.Pairwise]
  | cons x xs ih =>
    simp only [sortDedup, List.foldr_cons] at *
    exact pairwise_insertSD ih

theorem pairwise_strLt_unique : ∀ (l1 l2 : List String),
    l1.Pairwise strLt → l2.Pairwise strLt → (∀ a, a ∈ l1 ↔ a ∈ l2) → l1 = l2 := by
  intro l1
  induction l1 with
  | nil =>
    intro l2 _ _ hmem
    cases l2 with
    | nil => rfl
    | cons y ys => exact absurd ((hmem y).mpr (List.mem_cons_self y ys)) (by simp)
  | cons x xs ih =>
    intro l2 hp1 hp2 hmem
    cases l2 with
    | nil => exact absurd ((hmem x).mp (List.mem_cons_self x xs)) (by simp)
    | cons y ys =>
      rcases List.pairwise_cons.mp hp1 with ⟨hx, hxs⟩
      rcases List.pairwise_cons.mp hp2 with ⟨hy, hys⟩
      have hxy : x = y := by
        by_contra hne
        have hxmem : x ∈ y :: ys := (hmem x).mp (List.mem_cons_self x xs)
        have hymem : y ∈ x :: xs := (hmem y).mpr (List.mem_cons_self y ys)
        rcases List.mem_cons.mp hxmem with h1 | h1
        · exact hne h1
        · rcases List.mem_cons.mp hymem with h2 | h2
          · exact hne h2.symm
          · exact strLtB_asymm (hy x h1) (hx y h2)
      subst hxy
      have htl : ∀ a, a ∈ xs ↔ a ∈ ys := by
        intro a
        constructor
        · intro ha
          have : a ∈ x :: ys := (hmem a).mp (List.mem_cons_of_mem x ha)
          rcases List.mem_cons.mp this with rfl | h
          · have hlt : strLtB a a = true := hx a ha
            rw [strLtB_irrefl] at hlt
            exact absurd hlt Bool.false_ne_true
          · exact h
        · intro ha
          have : a ∈ x :: xs := (hmem a).mpr (List.mem_cons_of_mem x ha)
          rcases List.mem_cons.mp this with rfl | h
          · have hlt : strLtB a a = true := hy a ha
            rw [strLtB_irrefl] at hlt
            exact absurd hlt Bool.false_ne_true
          · exact h
      rw [ih ys hxs hys htl]

theorem sortDedup_eq_of_mem_iff {xs ys : List String}
    (h : ∀ a, a ∈ xs ↔ a ∈ ys) : sortDedup xs = sortDedup ys :=
  pairwise_strLt_unique _ _ (pairwise_sortDedup xs) (pairwise_sortDedup ys)
    (fun a => by rw [mem_sortDedup, mem_sortDedup]; exact h a)


/-! ### Canonicalization and cache lemmas -/

theorem memb_iff {x : String} : ∀ {l : List String}, memb x l = true ↔ x ∈ l := by
  intro l
  induction l with
  | nil => simp [memb]
  | cons y ys ih =>
    simp only [memb]
    split
    · rename_i h
      subst h
      simp
    · rename_i h
      simp only [List.mem_cons, ih]
      constructor
      · exact Or.inr
      · rintro (rfl | hm)
        · exact absurd rfl h
        · exact hm

theorem ensure_hashable_elems (a : PyValue) :
    ensure_hashable a = a.elems.map sortDedup := by
  cases a <;> rfl

theorem ensure_hashable_congr {a b : PyValue} (h : PyValue.sameElemsB a b = true) :
    ensure_hashable a = ensure_hashable b := by
  have key : ∀ xs ys : List String,
      ((xs.all (fun x => memb x ys)) && (ys.all (fun y => memb y xs))) = true →
      sortDedup xs = sortDedup ys := by
    intro xs ys hxy
    simp only [Bool.and_eq_true, List.all_eq_true] at hxy
    exact sortDedup_eq_of_mem_iff (fun c =>
      ⟨fun hc => memb_iff.mp (hxy.1 c hc), fun hc => memb_iff.mp (hxy.2 c hc)⟩)
  rw [ensure_hashable_elems, ensure_hashable_elems]
  cases a <;> cases b <;>
    simp only [PyValue.sameElemsB, PyValue.elems, Option.map_some, Option.map_none] at h ⊢ <;>
    first
      | rfl
      | exact (Bool.false_ne_true h).elim
      | exact congrArg some (key _ _ h)

theorem lookupTag_mem {κ α : Type} [DecidableEq κ] :
    ∀ {l : List (κ × Nat × α)} {k : κ} {tv : Nat × α},
      lookupTag l k = some tv → (k, tv) ∈ l := by
  intro l
  induction l with
  | nil => intro k tv h; simp [lookupTag] at h
  | cons e rest ih =>
    intro k tv h
    obtain ⟨ke, tve⟩ := e
    simp only [lookupTag] at h
    split at h
    · rename_i heq
      subst heq
      obtain rfl : tve = tv := Option.some.inj h
      exact List.mem_cons_self _ _
    · exact List.mem_cons_of_mem _ (ih h)

theorem lruCall_self {κ α : Type} [DecidableEq κ] (n : Nat) (f : κ → α)
    (st : CacheState κ α) (k : κ) (hn : 0 < n) :
    (lruCall n f (lruCall n f st k).2 k).1 = (lruCall n f st k).1 ∧
      (lruCall n f (lruCall n f st k).2 k).2.misses = (lruCall n f st k).2.misses := by
  cases hc : lookupTag st.entries k with
  | some tv => simp [lruCall, hc, lookupTag]
  | none =>
    obtain ⟨m, rfl⟩ : ∃ m, n = m + 1 := ⟨n - 1, by omega⟩
    simp [lruCall, hc, lookupTag, List.take_succ_cons]

theorem lruCall_value {κ α : Type} [DecidableEq κ] (n : Nat) (f : κ → α)
    (st : CacheState κ α) (k : κ) (hwf : CacheWF f st) :
    (lruCall n f st k).1.2 = f k := by
  cases hc : lookupTag st.entries k with
  | some tv =>
    have hv : tv.2 = f k := hwf (k, tv) (lookupTag_mem hc)
    simp [lruCall, hc, hv]
  | none => simp [lruCall, hc]

theorem list_layers_key_congr (s1 v1 p1 t1 d1 s2 v2 p2 t2 d2 : PyValue)
    (df si ia : Bool)
    (hs : PyValue.sameElemsB s1 s2 = true) (hv : PyValue.sameElemsB v1 v2 = true)
    (hp : PyValue.sameElemsB p1 p2 = true) (ht : PyValue.sameElemsB t1 t2 = true)
    (hd : PyValue.sameElemsB d1 d2 = true) :
    list_layers_key s2 v2 p2 t2 d2 df si ia = list_layers_key s1 v1 p1 t1 d1 df si ia := by
  simp only [list_layers_key, ensure_hashable_congr hs, ensure_hashable_congr hv,
    ensure_hashable_congr hp, ensure_hashable_congr ht, ensure_hashable_congr hd]


/-! ## Concrete inputs used by witnesses and counterexamples -/

/-- A small concrete server catalog. -/
def demoCatalog : Catalog :=
  ⟨[⟨"allDatasets", "All Datasets", "", ""⟩,
    ⟨"po4_ssp119_2020_2100_depthsurf", "Phosphate ssp119", "", ""⟩,
    ⟨"chl_baseline_2000_2018_depthsurf", "Chlorophyll baseline", "", ""⟩,
    ⟨"thetao_ssp585_2020_2100_depthmean", "Temperature ssp585", "", ""⟩],
    true, false, false⟩

/-- An empty `_layer_dataframe` cache. -/
def emptyLayerCache : CacheState Bool Catalog := ⟨[], 0, 0⟩

/-- An empty `_list_layers` cache. -/
def emptyFilterCache : CacheState FilterKey ListLayersResult := ⟨[], 0, 0⟩

/-! ## Claim theorems -/

/-- C7: `_layer_dataframe` returns the server table with its first row
dropped exactly when `include_allDatasets` is false, and is memoized per
flag value by a capacity-2 `lru_cache`: a repeated call with the same
flag performs no further fetch (`misses` unchanged) and returns the
cached table, the identical object (same tag). -/
theorem layer_dataframe_fetch_cached (serverCat : Catalog) (st : CacheState Bool Catalog)
    (flag : Bool) (hwf : CacheWF (layerDataframeCompute serverCat) st) :
    (lruCall 2 (layerDataframeCompute serverCat) st flag).1.2
        = (if flag then serverCat else { serverCat with rows := serverCat.rows.drop 1 })
    ∧ (lruCall 2 (layerDataframeCompute serverCat)
          (lruCall 2 (layerDataframeCompute serverCat) st flag).2 flag).1
        = (lruCall 2 (layerDataframeCompute serverCat) st flag).1
    ∧ (lruCall 2 (layerDataframeCompute serverCat)
          (lruCall 2 (layerDataframeCompute serverCat) st flag).2 flag).2.misses
        = (lruCall 2 (layerDataframeCompute serverCat) st flag).2.misses := by
  refine ⟨?_, (lruCall_self 2 _ st flag (by norm_num)).1,
    (lruCall_self 2 _ st flag (by norm_num)).2⟩
  rw [lruCall_value 2 _ st flag hwf]
  rfl

/-- Witness for C7 at a concrete catalog, an empty cache and
`include_allDatasets = false`. -/
theorem layer_dataframe_fetch_cached_witness :
    CacheWF (layerDataframeCompute demoCatalog) emptyLayerCache
    ∧ ((lruCall 2 (layerDataframeCompute demoCatalog) emptyLayerCache false).1.2
        = (if false then demoCatalog
            else { demoCatalog with rows := demoCatalog.rows.drop 1 })
      ∧ (lruCall 2 (layerDataframeCompute demoCatalog)
            (lruCall 2 (layerDataframeCompute demoCatalog) emptyLayerCache false).2 false).1
          = (lruCall 2 (layerDataframeCompute demoCatalog) emptyLayerCache false).1
      ∧ (lruCall 2 (layerDataframeCompute demoCatalog)
            (lruCall 2 (layerDataframeCompute demoCatalog) emptyLayerCache false).2 false).2.misses
          = (lruCall 2 (layerDataframeCompute demoCatalog) emptyLayerCache false).2.misses) :=
  ⟨by simp [CacheWF, emptyLayerCache],
    layer_dataframe_fetch_cached demoCatalog emptyLayerCache false
      (by simp [CacheWF, emptyLayerCache])⟩

theorem validate_argument_ok_of_scalar (name : String) (value : PyValue)
    (valid_values : List String) (h : value.isScalar = true) :
    ∃ d, validate_argument name value valid_values = Except.ok d := by
  cases value with
  | pyNone => exact ⟨[], rfl⟩
  | pyStr s => exact ⟨_, rfl⟩
  | pyList xs => simp [PyValue.isScalar] at h
  | pyTuple xs => simp [PyValue.isScalar] at h
  | pySet xs => simp [PyValue.isScalar] at h

theorem list_layers_validate_ok (vars ssp time_period depth : PyValue)
    (h : (vars.isScalar && ssp.isScalar && time_period.isScalar && depth.isScalar) = true) :
    ∃ ds, list_layers_validate vars ssp time_period depth = Except.ok ds := by
  simp only [Bool.and_eq_true] at h
  obtain ⟨⟨⟨h1, h2⟩, h3⟩, h4⟩ := h
  obtain ⟨d1, e1⟩ := validate_argument_ok_of_scalar "variables" vars valid_variables h1
  obtain ⟨d2, e2⟩ := validate_argument_ok_of_scalar "ssp" ssp valid_ssp h2
  obtain ⟨d3, e3⟩ :=
    validate_argument_ok_of_scalar "time_period" time_period valid_time_period h3
  obtain ⟨d4, e4⟩ := validate_argument_ok_of_scalar "depth" depth valid_depth h4
  exact ⟨d1 ++ d2 ++ d3 ++ d4, by simp only [list_layers_validate, e1, e2, e3, e4]⟩

/-- Counterexample to C1 as stated: at the claim's own inputs
`variables=["po4","chl"]` and `variables={"chl","po4"}`, a `list_layers`
call raises `NameError` in the validation step (utils.py line 85 reads
`Iterable`, which is never imported) before the cache is consulted, so
neither call returns any result object, identical or otherwise. -/
theorem list_layers_list_argument_raises :
    list_layers_full demoCatalog emptyFilterCache PyValue.pyNone
        (PyValue.pyList ["po4", "chl"]) PyValue.pyNone PyValue.pyNone PyValue.pyNone
        true false false
      = Except.error "NameError: name 'Iterable' is not defined"
    ∧ list_layers_full demoCatalog emptyFilterCache PyValue.pyNone
        (PyValue.pySet ["chl", "po4"]) PyValue.pyNone PyValue.pyNone PyValue.pyNone
        true false false
      = Except.error "NameError: name 'Iterable' is not defined" :=
  ⟨rfl, rfl⟩

/-- C1 (amended): two `list_layers` calls whose filter arguments carry
the same elements — in any container and order — canonicalize to the
same cache key, and the second call returns the identical (same tag,
hence same object) result as the first, *provided both calls survive the
argument-validation step*: each validated argument (`variables`, `ssp`,
`time_period`, `depth`) must be `None` or a single string, since any
list/tuple/set there raises `NameError` before the cache is consulted
(see `list_layers_list_argument_raises`); the unvalidated `search`
argument may be any container in any order. -/
theorem list_layers_cache_identity_validated (serverCat : Catalog)
    (st : CacheState FilterKey ListLayersResult)
    (s1 v1 p1 t1 d1 s2 v2 p2 t2 d2 : PyValue) (df si ia : Bool)
    (hs : PyValue.sameElemsB s1 s2 = true) (hv : PyValue.sameElemsB v1 v2 = true)
    (hp : PyValue.sameElemsB p1 p2 = true) (ht : PyValue.sameElemsB t1 t2 = true)
    (hd : PyValue.sameElemsB d1 d2 = true)
    (hsc1 : (v1.isScalar && p1.isScalar && t1.isScalar && d1.isScalar) = true)
    (hsc2 : (v2.isScalar && p2.isScalar && t2.isScalar && d2.isScalar) = true) :
    list_layers_key s2 v2 p2 t2 d2 df si ia = list_layers_key s1 v1 p1 t1 d1 df si ia
    ∧ ∃ out1 out2,
        list_layers_full serverCat st s1 v1 p1 t1 d1 df si ia = Except.ok out1
        ∧ list_layers_full serverCat out1.2 s2 v2 p2 t2 d2 df si ia = Except.ok out2
        ∧ out2.1 = out1.1 := by
  have hk := list_layers_key_congr s1 v1 p1 t1 d1 s2 v2 p2 t2 d2 df si ia hs hv hp ht hd
  obtain ⟨ds1, e1⟩ := list_layers_validate_ok v1 p1 t1 d1 hsc1
  obtain ⟨ds2, e2⟩ := list_layers_validate_ok v2 p2 t2 d2 hsc2
  refine ⟨hk,
    list_layers_call serverCat st s1 v1 p1 t1 d1 df si ia,
    list_layers_call serverCat
      (list_layers_call serverCat st s1 v1 p1 t1 d1 df si ia).2
      s2 v2 p2 t2 d2 df si ia,
    ?_, ?_, ?_⟩
  · simp only [list_layers_full, e1]
  · simp only [list_layers_full, e2]
  · unfold list_layers_call
    rw [hk]
    exact (lruCall_self 8 _ st _ (by norm_num)).1

/-- Witness for the amended C1: `search` given as a list and as a
differently-ordered set (`search` is not validated), `variables` as the
single string `"po4"`, against a concrete catalog and an empty cache. -/
theorem list_layers_cache_identity_validated_witness :
    PyValue.sameElemsB (PyValue.pyList ["temperature", "oxygen"])
        (PyValue.pySet ["oxygen", "temperature"]) = true
    ∧ ((PyValue.pyStr "po4").isScalar && (PyValue.pyNone).isScalar
        && (PyValue.pyNone).isScalar && (PyValue.pyNone).isScalar) = true
    ∧ (list_layers_key (PyValue.pySet ["oxygen", "temperature"]) (PyValue.pyStr "po4")
          PyValue.pyNone PyValue.pyNone PyValue.pyNone true false false
        = list_layers_key (PyValue.pyList ["temperature", "oxygen"]) (PyValue.pyStr "po4")
          PyValue.pyNone PyValue.pyNone PyValue.pyNone true false false
      ∧ ∃ out1 out2,
          list_layers_full demoCatalog emptyFilterCache
              (PyValue.pyList ["temperature", "oxygen"]) (PyValue.pyStr "po4")
              PyValue.pyNone PyValue.pyNone PyValue.pyNone true false false
            = Except.ok out1
          ∧ list_layers_full demoCatalog out1.2
              (PyValue.pySet ["oxygen", "temperature"]) (PyValue.pyStr "po4")
              PyValue.pyNone PyValue.pyNone PyValue.pyNone true false false
            = Except.ok out2
          ∧ out2.1 = out1.1) :=
  ⟨by decide, by decide,
    list_layers_cache_identity_validated demoCatalog emptyFilterCache
      (PyValue.pyList ["temperature", "oxygen"]) (PyValue.pyStr "po4") PyValue.pyNone
      PyValue.pyNone PyValue.pyNone (PyValue.pySet ["oxygen", "temperature"])
      (PyValue.pyStr "po4") PyValue.pyNone PyValue.pyNone PyValue.pyNone true false false
      (by decide) (by decide) (by decide) (by decide) (by decide) (by decide) (by decide)⟩


theorem strftime_seconds_ne_empty (t : PyDateTime) : strftime_seconds t ≠ "" := by
  intro h
  have hlen := congrArg String.length h
  have hdash : ("-" : String).length = 1 := rfl
  have hempty : ("" : String).length = 0 := rfl
  simp only [strftime_seconds, String.length_append, hdash, hempty] at hlen
  omega

/-- C8: the filename `_download_layer` chooses is always
`{dataset_id}_{current time formatted to seconds}.{response}`; the
boolean `timestamp` parameter has no effect, because the formatted
current time overwrites it before the conditional reads it and that
string is never empty. -/
theorem download_filename_ignores_flag (dataset_id response : String) (flag : Bool)
    (now : PyDateTime) :
    download_layer_filename dataset_id response flag now
      = dataset_id ++ "_" ++ strftime_seconds now ++ "." ++ response
    ∧ download_layer_filename dataset_id response true now
      = download_layer_filename dataset_id response false now := by
  constructor
  · simp only [download_layer_filename]
    rw [if_pos (strftime_seconds_ne_empty now)]
  · rfl

theorem isLower_eq_false_of_isUpper {c : Char} (h : c.isUpper = true) :
    c.isLower = false := by
  simp only [Char.isUpper, Bool.and_eq_true, decide_eq_true_eq] at h
  simp only [Char.isLower, Bool.and_eq_false_iff]
  left
  simp only [decide_eq_false_iff_not]
  intro hc
  have h2 : c.val.toNat ≤ 90 := by exact_mod_cast h.2
  have hc' : 97 ≤ c.val.toNat := by exact_mod_cast hc
  omega

theorem isAlpha_of_isUpper {c : Char} (h : c.isUpper = true) : c.isAlpha = true := by
  simp [Char.isAlpha, h]

/-- C9: `download_layers` lower-cases a dataset id (printing a notice,
the boolean component) exactly when the id is not `islower()` and
`skip_convert_to_lowercase` is not set: an id with an upper-case
character is converted, a lower-case id passes through unchanged, and
`skip_convert_to_lowercase` suppresses the conversion. -/
theorem download_id_lowercased (id : String) (skip : Bool) :
    (skip = true → normalize_dataset_id id skip = (id, false))
    ∧ (pyIsLower id = true → normalize_dataset_id id skip = (id, false))
    ∧ ((∃ c, c ∈ id.data ∧ c.isUpper = true) → skip = false →
        normalize_dataset_id id skip = (pyLower id, true)) := by
  refine ⟨?_, ?_, ?_⟩
  · rintro rfl
    simp [normalize_dataset_id]
  · intro h
    simp [normalize_dataset_id, h]
  · rintro ⟨c, hc, hcu⟩ rfl
    have hlow : pyIsLower id = false := by
      have hfalse : (!c.isAlpha || c.isLower) = false := by
        rw [isAlpha_of_isUpper hcu, isLower_eq_false_of_isUpper hcu]
        rfl
      simp only [pyIsLower, Bool.and_eq_false_iff]
      right
      rw [List.all_eq_false]
      exact ⟨c, hc, by simp [hfalse]⟩
    simp [normalize_dataset_id, hlow]

/-- Witness for C9: `"Thetao_X"` contains an upper-case character and is
lower-cased with a notice. -/
theorem download_id_lowercased_witness :
    (∃ c, c ∈ ("Thetao_X" : String).data ∧ c.isUpper = true)
    ∧ normalize_dataset_id "Thetao_X" false = (pyLower "Thetao_X", true) :=
  ⟨⟨'T', by decide, by decide⟩,
    (download_id_lowercased "Thetao_X" false).2.2 ⟨'T', by decide, by decide⟩ rfl⟩


/-- C3 (code bug): on any non-string iterable value `_validate_argument`
raises `NameError` (utils.py line 85 reads `Iterable`, which is never
imported), instead of printing per-token diagnostics and continuing; only
the single-string branch behaves as documented, printing a diagnostic
that names the field, the offending value and the allowed set, without
raising. -/
theorem validate_argument_iterable_raises :
    validate_argument "variables" (PyValue.pyList ["po4", "notavariable"]) valid_variables
      = Except.error "NameError: name 'Iterable' is not defined"
    ∧ validate_argument "variables" (PyValue.pyTuple ["po4"]) valid_variables
      = Except.error "NameError: name 'Iterable' is not defined"
    ∧ validate_argument "variables" (PyValue.pyStr "notavariable") valid_variables
      = Except.ok [("variables", "notavariable", valid_variables)]
    ∧ validate_argument "variables" (PyValue.pyStr "po4") valid_variables
      = Except.ok [] := by
  refine ⟨rfl, rfl, ?_, ?_⟩ <;> rfl

/-- A concrete filesystem: a configured data directory holding two files
and the directory passed as the explicit argument holding one. -/
def demoFilesystem : String → List String := fun d =>
  if d = "/config/data" then ["/config/data/a.nc", "/config/data/a.log"]
  else if d = "/tmp/other" then ["/tmp/other/b.nc"]
  else []

/-- C6 (code bug): `list_local_data` echoes the explicit `data_directory`
argument in its messages, but main.py line 332 globs
`config["data_directory"]`, so the files enumerated (and sized) are the
configured directory's entries, not the argument directory's. -/
theorem list_local_data_ignores_argument :
    reported_directory (some "/tmp/other") "/config/data" = "/tmp/other"
    ∧ list_local_files (some "/tmp/other") "/config/data" demoFilesystem true
        = ["/config/data/a.nc", "/config/data/a.log"]
    ∧ list_local_files (some "/tmp/other") "/config/data" demoFilesystem true
        ≠ demoFilesystem "/tmp/other"
    ∧ list_local_files (some "/tmp/other") "/config/data" demoFilesystem false
        = ["/config/data/a.nc"] := by
  refine ⟨rfl, rfl, ?_, ?_⟩ <;> decide


theorem convert_bytes_eq (num : ℚ) :
    convert_bytes num =
      if num < 1024 then some (num, "bytes")
      else if num / 1024 ^ 1 < 1024 then some (num / 1024 ^ 1, "KB")
      else if num / 1024 ^ 2 < 1024 then some (num / 1024 ^ 2, "MB")
      else if num / 1024 ^ 3 < 1024 then some (num / 1024 ^ 3, "GB")
      else if num / 1024 ^ 4 < 1024 then some (num / 1024 ^ 4, "TB")
      else none := by
  have d1 : num / 1024 = num / 1024 ^ 1 := by norm_num
  have d2 : num / 1024 ^ 1 / 1024 = num / 1024 ^ 2 := by
    rw [div_div, ← pow_succ]
  have d3 : num / 1024 ^ 2 / 1024 = num / 1024 ^ 3 := by
    rw [div_div, ← pow_succ]
  have d4 : num / 1024 ^ 3 / 1024 = num / 1024 ^ 4 := by
    rw [div_div, ← pow_succ]
  simp only [convert_bytes, convert_bytes_units, convert_bytes_go, d1, d2, d3, d4]

/-- C10: `convert_bytes` returns a formatted value-and-unit result for
every non-negative byte count strictly below `1024^5`, choosing the
first unit among bytes, KB, MB, GB, TB whose scaled value is below 1024,
and falls off the loop returning Python `None` for every count of at
least `1024^5`. -/
theorem convert_bytes_spec (num : ℚ) (h0 : 0 ≤ num) :
    (num < 1024 ^ 5 →
      ∃ k u, convert_bytes_units.get? k = some u
        ∧ convert_bytes num = some (num / 1024 ^ k, u)
        ∧ num / 1024 ^ k < 1024
        ∧ ∀ j < k, 1024 ≤ num / 1024 ^ j)
    ∧ (1024 ^ 5 ≤ num → convert_bytes num = none) := by
  have p1 : (0 : ℚ) < 1024 := by norm_num
  have hcond : ∀ k : ℕ, (num / 1024 ^ k < 1024 ↔ num < 1024 ^ (k + 1)) := by
    intro k
    rw [div_lt_iff₀ (pow_pos p1 k), ← pow_succ']
  have hge : ∀ k : ℕ, (1024 ≤ num / 1024 ^ k ↔ 1024 ^ (k + 1) ≤ num) := by
    intro k
    rw [le_div_iff₀ (pow_pos p1 k), ← pow_succ']
  rw [convert_bytes_eq]
  have h00 : num / 1024 ^ 0 = num := by norm_num
  split_ifs with h1 h2 h3 h4 h5
  · refine ⟨fun _ => ⟨0, "bytes", rfl, by rw [h00], by rw [h00]; exact h1,
      fun j hj => absurd hj (Nat.not_lt_zero j)⟩, fun habs => ?_⟩
    exfalso
    have : (1024 : ℚ) ^ 5 < 1024 := lt_of_le_of_lt habs h1
    norm_num at this
  · refine ⟨fun _ => ⟨1, "KB", rfl, rfl, h2, ?_⟩, fun habs => ?_⟩
    · intro j hj
      interval_cases j
      rw [h00]
      exact not_lt.mp h1
    · exfalso
      have h5le : (1024 : ℚ) ^ 2 ≤ 1024 ^ 5 := by norm_num
      exact absurd ((hcond 1).mp h2) (not_lt.mpr (le_trans h5le habs))
  · refine ⟨fun _ => ⟨2, "MB", rfl, rfl, h3, ?_⟩, fun habs => ?_⟩
    · intro j hj
      interval_cases j
      · rw [h00]; exact not_lt.mp h1
      · exact not_lt.mp h2
    · exfalso
      have h5le : (1024 : ℚ) ^ 3 ≤ 1024 ^ 5 := by norm_num
      exact absurd ((hcond 2).mp h3) (not_lt.mpr (le_trans h5le habs))
  · refine ⟨fun _ => ⟨3, "GB", rfl, rfl, h4, ?_⟩, fun habs => ?_⟩
    · intro j hj
      interval_cases j
      · rw [h00]; exact not_lt.mp h1
      · exact not_lt.mp h2
      · exact not_lt.mp h3
    · exfalso
      have h5le : (1024 : ℚ) ^ 4 ≤ 1024 ^ 5 := by norm_num
      exact absurd ((hcond 3).mp h4) (not_lt.mpr (le_trans h5le habs))
  · refine ⟨fun _ => ⟨4, "TB", rfl, rfl, h5, ?_⟩, fun habs => ?_⟩
    · intro j hj
      interval_cases j
      · rw [h00]; exact not_lt.mp h1
      · exact not_lt.mp h2
      · exact not_lt.mp h3
      · exact not_lt.mp h4
    · exfalso
      exact absurd ((hcond 4).mp h5) (not_lt.mpr habs)
  · refine ⟨fun hlt => ?_, fun _ => rfl⟩
    exfalso
    exact absurd ((hge 4).mp (not_lt.mp h5)) (not_le.mpr hlt)

/-- Witness for C10 at `num = 2048`: below `1024^5`, formatted as
`2.0 KB`. -/
theorem convert_bytes_spec_witness :
    (0 : ℚ) ≤ 2048 ∧ (2048 : ℚ) < 1024 ^ 5
    ∧ ∃ k u, convert_bytes_units.get? k = some u
        ∧ convert_bytes 2048 = some (2048 / 1024 ^ k, u)
        ∧ (2048 : ℚ) / 1024 ^ k < 1024
        ∧ ∀ j < k, 1024 ≤ (2048 : ℚ) / 1024 ^ j :=
  ⟨by norm_num, by norm_num,
    (convert_bytes_spec 2048 (by norm_num)).1 (by norm_num)⟩


/-- C5 (amended): for every filter query, `dataframe=False` returns the
ordered list of strings that is element-for-element the `datasetID`
column of the `dataframe=True` result of the same query, with the same
number of entries — but it is empty (not non-empty) exactly when the
filtered table has no rows. -/
theorem list_mode_matches_table_ids (s v sp tp d : Option (List String)) (si : Bool)
    (cat : Catalog) :
    listLayersCore s v sp tp d false si cat
      = ListLayersResult.idList (resultIds (listLayersCore s v sp tp d true si cat))
    ∧ resultRowCount (listLayersCore s v sp tp d false si cat)
      = resultRowCount (listLayersCore s v sp tp d true si cat) := by
  unfold listLayersCore
  cases si <;>
    simp [resultIds, resultRowCount, List.map_map, Function.comp]

/-- Counterexample to C5 as stated: a query whose search term matches no
row makes `dataframe=False` return the empty list, so the result is not
always non-empty. -/
def c5Catalog : Catalog :=
  ⟨[⟨"po4_baseline_2000_2019_depthsurf", "Phosphate", "", ""⟩], true, false, false⟩

/-- Counterexample to C5 as stated (see `c5Catalog`). -/
theorem list_mode_empty_result :
    listLayersCore (some ["zzz"]) Option.none Option.none Option.none Option.none
      false false c5Catalog = ListLayersResult.idList [] := by decide


/-- How many of the requested variable tokens a row's identifier starts
with. -/
def matchCount (vs : List String) (r : Row) : Nat :=
  (vs.filter (fun v => pyStartsWith r.datasetID (pyLower v))).length

theorem sum_map_zero (rows : List Row) : (rows.map (fun _ => (0 : Nat))).sum = 0 := by
  induction rows with
  | nil => rfl
  | cons r rows ih => simp [ih]

theorem filter_length_eq_sum (p : Row → Bool) (rows : List Row) :
    (rows.filter p).length = (rows.map (fun r => if p r then 1 else 0)).sum := by
  induction rows with
  | nil => rfl
  | cons r rows ih =>
    by_cases h : p r <;> simp [List.filter_cons, h, ih] <;> omega

theorem sum_map_add (f g : Row → Nat) (rows : List Row) :
    (rows.map (fun r => f r + g r)).sum = (rows.map f).sum + (rows.map g).sum := by
  induction rows with
  | nil => rfl
  | cons r rows ih =>
    simp only [List.map_cons, List.sum_cons, ih]
    omega

theorem matchCount_cons (v : String) (vs : List String) (r : Row) :
    matchCount (v :: vs) r
      = (if pyStartsWith r.datasetID (pyLower v) then 1 else 0) + matchCount vs r := by
  unfold matchCount
  rw [List.filter_cons]
  by_cases h : pyStartsWith r.datasetID (pyLower v) <;> simp [h, Nat.add_comm]

theorem flatten_filter_length (vs : List String) (rows : List Row) :
    ((vs.map (fun v => rows.filter (fun r => pyStartsWith r.datasetID (pyLower v)))).flatten).length
      = (rows.map (fun r => matchCount vs r)).sum := by
  induction vs with
  | nil =>
    simp only [List.map_nil, List.flatten_nil, List.length_nil, matchCount,
      List.filter_nil]
    rw [sum_map_zero]
  | cons v vs ih =>
    simp only [List.map_cons, List.flatten_cons, List.length_append, ih,
      filter_length_eq_sum]
    have : (rows.map fun r => matchCount (v :: vs) r)
        = rows.map fun r =>
            (if pyStartsWith r.datasetID (pyLower v) then 1 else 0) + matchCount vs r := by
      exact List.map_congr_left (fun r _ => matchCount_cons v vs r)
    rw [this, sum_map_add]

theorem sum_le_length (f : Row → Nat) (rows : List Row)
    (hone : ∀ r ∈ rows, f r ≤ 1) : (rows.map f).sum ≤ rows.length := by
  induction rows with
  | nil => simp
  | cons r rows ih =>
    simp only [List.map_cons, List.sum_cons, List.length_cons]
    have h1 := hone r (List.mem_cons_self r rows)
    have h2 := ih (fun x hx => hone x (List.mem_cons_of_mem r hx))
    omega

theorem sum_lt_length (f : Row → Nat) (rows : List Row)
    (hone : ∀ r ∈ rows, f r ≤ 1) (hzero : ∃ r ∈ rows, f r = 0) :
    (rows.map f).sum < rows.length := by
  induction rows with
  | nil =>
    rcases hzero with ⟨r, hr, _⟩
    exact absurd hr (List.not_mem_nil r)
  | cons r rows ih =>
    simp only [List.map_cons, List.sum_cons, List.length_cons]
    rcases hzero with ⟨r0, hr0, hf0⟩
    rcases List.mem_cons.mp hr0 with rfl | hr0'
    · have htail := sum_le_length f rows (fun x hx => hone x (List.mem_cons_of_mem r0 hx))
      rw [hf0]
      omega
    · have hlt := ih (fun x hx => hone x (List.mem_cons_of_mem r hx)) ⟨r0, hr0', hf0⟩
      have h1 := hone r (List.mem_cons_self r rows)
      omega

/-- C4 (amended): a non-empty `variables` filter yields strictly fewer
rows than the unfiltered catalog provided some catalog row starts with
none of the requested tokens *and no row starts with more than one of
them* — because the per-variable matches are concatenated without
deduplication, a row whose identifier starts with two requested tokens
(e.g. `si` and `siconc`) is counted twice, which can defeat the strict
inequality claimed. -/
theorem variables_filter_strict_count (cat : Catalog) (vs : List String)
    (hne : vs ≠ [])
    (hone : ∀ r ∈ cat.rows, matchCount vs r ≤ 1)
    (hmiss : ∃ r ∈ cat.rows, matchCount vs r = 0) :
    resultRowCount (listLayersCore Option.none (some vs) Option.none Option.none
        Option.none true false cat)
      < cat.rows.length := by
  obtain ⟨x, xs, rfl⟩ : ∃ x xs, vs = x :: xs := by
    cases vs with
    | nil => exact absurd rfl hne
    | cons x xs => exact ⟨x, xs, rfl⟩
  have hcount : resultRowCount (listLayersCore Option.none (some (x :: xs)) Option.none
      Option.none Option.none true false cat)
      = (cat.rows.map (fun r => matchCount (x :: xs) r)).sum := by
    show (((x :: xs).map
      (fun v => cat.rows.filter (fun r => pyStartsWith r.datasetID (pyLower v)))).flatten).length
      = _
    exact flatten_filter_length (x :: xs) cat.rows
  rw [hcount]
  exact sum_lt_length _ _ hone hmiss

/-- The catalog of the C4 counterexample: one `siconc` dataset (whose id
starts with both valid tokens `si` and `siconc`) and one `po4` dataset
matching neither. -/
def c4Catalog : Catalog :=
  ⟨[⟨"siconc_ssp119_2020_2100_depthsurf", "Sea ice concentration", "", ""⟩,
    ⟨"po4_ssp119_2020_2100_depthsurf", "Phosphate", "", ""⟩], true, false, false⟩

/-- Counterexample to C4 as stated: with `variables=["si","siconc"]` the
`siconc` row is concatenated twice, so the filtered row count equals the
catalog row count even though the `po4` row matches no requested token. -/
theorem variables_filter_not_strict :
    (∃ r ∈ c4Catalog.rows, ∀ v ∈ ["si", "siconc"],
        pyStartsWith r.datasetID (pyLower v) = false)
    ∧ ¬ (resultRowCount (listLayersCore Option.none (some ["si", "siconc"]) Option.none
          Option.none Option.none true false c4Catalog) < c4Catalog.rows.length) := by
  decide

/-- Witness for the amended C4 at `variables=["po4"]` on `c4Catalog`. -/
theorem variables_filter_strict_count_witness :
    (["po4"] ≠ ([] : List String))
    ∧ (∀ r ∈ c4Catalog.rows, matchCount ["po4"] r ≤ 1)
    ∧ (∃ r ∈ c4Catalog.rows, matchCount ["po4"] r = 0)
    ∧ resultRowCount (listLayersCore Option.none (some ["po4"]) Option.none Option.none
        Option.none true false c4Catalog) < c4Catalog.rows.length :=
  ⟨by decide, by decide, by decide,
    variables_filter_strict_count c4Catalog ["po4"] (by decide) (by decide) (by decide)⟩


/-- The pipeline the C2 claim (spec §4.3 step 3 and the legacy
`bio_oracle_py/main.py` lines 135-142) describes: when the `time_period`
filter fires (`present` or `future`), return immediately with only the
search and variables filters (plus the decade restriction itself)
applied, skipping any requested ssp and depth filters; otherwise
continue through ssp and depth.  Written from the claim's words, to be
compared with `listLayersCore`. -/
def listLayersShortCircuit (search vars ssp time_period depth : Option (List String))
    (dataframe simplify : Bool) (cat : Catalog) : ListLayersResult :=
  let rows1 :=
    if truthy search then
      cat.rows.filter (fun r => searchMatch cat (search.getD []) r)
    else cat.rows
  let rows2 :=
    if truthy vars then
      ((vars.getD []).map
        (fun v => rows1.filter (fun r => pyStartsWith r.datasetID (pyLower v)))).flatten
    else rows1
  let shape := fun (rows : List Row) =>
    if dataframe then
      if simplify then
        ListLayersResult.simpleTable (rows.map (fun r => (r.datasetID, r.title)))
      else ListLayersResult.table rows
    else ListLayersResult.idList (rows.map (fun r => r.datasetID))
  if time_period = some ["present"] then
    shape (rows2.filter (fun r => startDecade r.datasetID == some "2000"))
  else if time_period = some ["future"] then
    shape (rows2.filter (fun r => startDecade r.datasetID == some "2020"))
  else
    let rows4 :=
      if truthy ssp then
        ((ssp.getD []).map
          (fun v => rows2.filter (fun r =>
            containsCI r.datasetID (pyLower v)
              || containsCI r.datasetID (pyCapitalize v)
              || containsCI r.datasetID (pyUpper v)))).flatten
      else rows2
    let rows5 :=
      if truthy depth then
        ((depth.getD []).map
          (fun v => rows4.filter (fun r =>
            containsCI r.datasetID ("depth" ++ pyLower v)
              || containsCI r.datasetID ("depth" ++ pyCapitalize v)
              || containsCI r.datasetID ("depth" ++ pyUpper v)))).flatten
      else rows4
    shape rows5

/-- The catalog of the C2 counterexample: two present-decade rows that
differ in their depth category. -/
def c2Catalog : Catalog :=
  ⟨[⟨"po4_ssp119_2000_2010_depthsurf", "Phosphate surface", "", ""⟩,
    ⟨"po4_ssp119_2000_2010_depthmean", "Phosphate mean", "", ""⟩], true, false, false⟩

/-- Counterexample to C2 as stated: with `time_period="present"` and
`depth=["surf"]`, the pyo_oracle pipeline still applies the depth filter
(one row survives), while the short-circuit behaviour the claim
describes would return both present-decade rows. -/
theorem time_period_no_short_circuit :
    listLayersCore Option.none Option.none Option.none (some ["present"]) (some ["surf"])
      true false c2Catalog
      = ListLayersResult.table [⟨"po4_ssp119_2000_2010_depthsurf", "Phosphate surface", "", ""⟩]
    ∧ listLayersShortCircuit Option.none Option.none Option.none (some ["present"])
        (some ["surf"]) true false c2Catalog
      = ListLayersResult.table
          [⟨"po4_ssp119_2000_2010_depthsurf", "Phosphate surface", "", ""⟩,
            ⟨"po4_ssp119_2000_2010_depthmean", "Phosphate mean", "", ""⟩]
    ∧ listLayersCore Option.none Option.none Option.none (some ["present"]) (some ["surf"])
        true false c2Catalog
      ≠ listLayersShortCircuit Option.none Option.none Option.none (some ["present"])
          (some ["surf"]) true false c2Catalog := by
  decide

/-- C2 (amended): when the `time_period` filter fires, the pyo_oracle
pipeline does *not* return early — it restricts the rows to the matching
start decade (2000 for present, 2020 for future) and then still applies
any requested ssp and depth filters to the restricted rows.  (The
immediate return the claim describes exists only in the legacy
`bio_oracle_py` variant.) -/
theorem time_period_filters_then_continues (cat : Catalog)
    (s v sp d tp : Option (List String)) (df si : Bool)
    (h : tp = some ["present"] ∨ tp = some ["future"]) :
    listLayersCore s v sp tp d df si cat
      = listLayersCore Option.none Option.none sp Option.none d df si
          { cat with rows := filteredRows s v Option.none tp Option.none cat }
    ∧ filteredRows s v Option.none tp Option.none cat
      = (filteredRows s v Option.none Option.none Option.none cat).filter
          (fun r => startDecade r.datasetID
            == some (if tp = some ["present"] then "2000" else "2020")) := by
  rcases h with rfl | rfl <;> exact ⟨rfl, rfl⟩

/-- Witness for the amended C2 at `time_period="present"`,
`depth=["surf"]` on `c2Catalog`. -/
theorem time_period_filters_then_continues_witness :
    ((some ["present"] : Option (List String)) = some ["present"]
      ∨ (some ["present"] : Option (List String)) = some ["future"])
    ∧ (listLayersCore Option.none Option.none Option.none (some ["present"])
          (some ["surf"]) true false c2Catalog
        = listLayersCore Option.none Option.none Option.none Option.none (some ["surf"])
            true false
            { c2Catalog with
                rows := filteredRows Option.none Option.none Option.none (some ["present"])
                  Option.none c2Catalog }
      ∧ filteredRows Option.none Option.none Option.none (some ["present"]) Option.none
          c2Catalog
        = (filteredRows Option.none Option.none Option.none Option.none Option.none
            c2Catalog).filter
            (fun r => startDecade r.datasetID
              == some (if (some ["present"] : Option (List String)) = some ["present"]
                then "2000" else "2020"))) :=
  ⟨Or.inl rfl,
    time_period_filters_then_continues c2Catalog Option.none Option.none Option.none
      (some ["surf"]) (some ["present"]) true false (Or.inl rfl)⟩

end PyoOracle
